import Mathlib

/-!
Verification of the gov-scale-token repository.

This file gives a shallow embedding of the two deployment modes of the
token service and proves the specified properties about them.

Part 1 models `src/comprasnet-token/server.py`:
  * the Redis-backed token store (`add_token`, `get_newest_token`,
    `cleanup_stale_references`) built on a sorted set plus per-key TTL
    value entries,
  * the worker-pool lifecycle (`start_token_generation`,
    `stop_token_generation`),
  * the HTTP routes `GET /token` and `POST /cleanup`.

Part 2 models `src/token-comprasnet.py`:
  * the on-demand single-session manager (`_generate_token`,
    `get_token`, `_initialize_browser`, the keepalive loop body).

Timestamps and scores are integers (Python uses floats from
`time.time()`; only their ordering and arithmetic with the integral
constants 120 and 60 matter here).  Redis calls that can raise
(connection failures) are modelled by an explicit failure mode
parameter; the Python `try`/`except` blocks are translated as an
`Except` body plus an explicit catch.  Wall-clock time is passed in
as an explicit `now` argument.
-/

/-- A token record, mirroring the `token_data` dict built in
`token_worker` (fields `token`, `duration`, `worker_id`, `timestamp`,
`source`).  The record is stored serialized in Redis; we store it
directly. -/
structure TokenData where
  token : String
  duration : Int
  worker_id : Nat
  timestamp : Int
  source : String
deriving DecidableEq, Repr

/-- The part of the Redis state the server uses: the string keyspace
(each key holding a serialized record together with its absolute
expiry instant, from `SETEX`) and the single sorted set
`rest_token_sorted_set` (member, score pairs). -/
structure RedisState where
  kv : List (String × TokenData × Int)
  zset : List (String × Int)
deriving DecidableEq, Repr

def emptyStore : RedisState := ⟨[], []⟩

/-- Lookup in the modelled keyspace. -/
def kvFind : List (String × TokenData × Int) → String → Option (TokenData × Int)
  | [], _ => none
  | e :: rest, k => if e.1 = k then some e.2 else kvFind rest k

/-- `SETEX key ttl value` at wall-clock `now`: the key now holds
`d` and expires at `now + ttl`. -/
def redisSetex (s : RedisState) (k : String) (ttl : Int) (d : TokenData) (now : Int) :
    RedisState :=
  { s with kv := (k, d, now + ttl) :: s.kv.filter (fun e => e.1 ≠ k) }

/-- `GET key` at wall-clock `now`: absent or already-expired keys read
as nil. -/
def redisGet (s : RedisState) (k : String) (now : Int) : Option TokenData :=
  match kvFind s.kv k with
  | some (d, exp) => if now < exp then some d else none
  | none => none

/-- `DEL key`. -/
def redisDel (s : RedisState) (k : String) : RedisState :=
  { s with kv := s.kv.filter (fun e => e.1 ≠ k) }

/-- `ZADD key {member: score}`: adds the member or overwrites its
score. -/
def redisZadd (s : RedisState) (k : String) (score : Int) : RedisState :=
  { s with zset := (k, score) :: s.zset.filter (fun e => e.1 ≠ k) }

/-- `ZCARD` of the sorted set. -/
def redisZcard (s : RedisState) : Nat := s.zset.length

/-- Whether `a` ranks strictly above `b` in the sorted set: higher
score first, ties broken by the lexicographically larger member (the
element Redis pops for `ZPOPMAX`). -/
def zBetter (a b : String × Int) : Bool :=
  b.2 < a.2 || (a.2 == b.2 && decide (b.1 < a.1))

/-- The maximal element of the sorted set under `zBetter`. -/
def zmaxEntry : List (String × Int) → Option (String × Int)
  | [] => none
  | e :: rest =>
    match zmaxEntry rest with
    | none => some e
    | some m => if zBetter m e then some m else some e

/-- `ZPOPMAX`: atomically remove and return the highest-scored
member, or nil on an empty set. -/
def redisZpopmax (s : RedisState) : Option ((String × Int) × RedisState) :=
  match zmaxEntry s.zset with
  | none => none
  | some m => some (m, { s with zset := s.zset.erase m })

/-- `ZREMRANGEBYSCORE key -inf maxScore`: removes every member whose
score is at most `maxScore` (both range ends are inclusive in Redis)
and returns the number removed. -/
def redisZremrangebyscore (s : RedisState) (maxScore : Int) : Nat × RedisState :=
  let kept := s.zset.filter (fun e => maxScore < e.2)
  (s.zset.length - kept.length, { s with zset := kept })

/-- `RestTokenManager.DEFAULT_TOKEN_EXPIRY` (`self.token_expiry`). -/
def tokenExpiry : Int := 120

/-- Python `token[-10:]`: the last ten characters of the token (the
whole token when shorter). -/
def suffix10 (t : String) : String := ⟨t.data.drop (t.data.length - 10)⟩

/-- The derived store key `f"rest_token:{token_data['token'][-10:]}"`. -/
def tokenKey (t : String) : String := "rest_token:" ++ suffix10 t

/-- `RestTokenManager.add_token` at wall-clock `now`: `SETEX` of the
value entry with TTL `token_expiry`, then `ZADD` of the index entry
scored by the record's timestamp. -/
def add_token (s : RedisState) (now : Int) (d : TokenData) : RedisState :=
  let key := tokenKey d.token
  redisZadd (redisSetex s key tokenExpiry d now) key d.timestamp

/-- Failure modes for the Redis calls inside `get_newest_token`:
either every call succeeds, or the named call raises (a connection
error), which the surrounding `try`/`except` catches. -/
inductive ConnMode
  | ok
  | failPop
  | failGet
  | failDel
deriving DecidableEq, Repr

/-- The `try` body of `RestTokenManager.get_newest_token`.  An
`error` result is a raised exception; its payload is the store state
at the moment of the raise (mutations already performed server-side
persist). -/
def getNewestTokenBody (m : ConnMode) (s : RedisState) (now : Int) :
    Except RedisState (Option TokenData × RedisState) :=
  if m = .failPop then .error s
  else
    match redisZpopmax s with
    | none => .ok (none, s)
    | some ((k, _sc), s1) =>
      if m = .failGet then .error s1
      else
        match redisGet s1 k now with
        | none => .ok (none, s1)
        | some d =>
          if m = .failDel then .error s1
          else .ok (some d, redisDel s1 k)

/-- `RestTokenManager.get_newest_token`: the body above with the
`except Exception: return None` catch. -/
def get_newest_token (m : ConnMode) (s : RedisState) (now : Int) :
    Option TokenData × RedisState :=
  match getNewestTokenBody m s now with
  | .ok r => r
  | .error s1 => (none, s1)

/-- `RestTokenManager.cleanup_stale_references` at wall-clock `now`:
computes the cutoff `now - token_expiry - 60` and issues
`ZREMRANGEBYSCORE ... "-inf" cutoff`; its own `except` returns 0.
`up` is false when the Redis call raises. -/
def cleanup_stale_references (up : Bool) (s : RedisState) (now : Int) :
    Nat × RedisState :=
  if up then
    let cutoff := now - tokenExpiry - 60
    redisZremrangebyscore s cutoff
  else (0, s)

/-- The `GET /token` route: HTTP status plus response payload.
`get_newest_token` returning a record gives 200, `None` gives
404 "No tokens available". -/
def route_get_token (m : ConnMode) (s : RedisState) (now : Int) :
    Nat × Option TokenData × RedisState :=
  match get_newest_token m s now with
  | (some d, s1) => (200, some d, s1)
  | (none, s1) => (404, none, s1)

/-- The `POST /cleanup` route.  Its handler wraps the call in
`try`/`except HTTPException(500)`, but `cleanup_stale_references`
catches every exception internally and returns 0, so the handler's
500 branch is unreachable and the route always answers 200 with the
removed count. -/
def route_cleanup (up : Bool) (s : RedisState) (now : Int) :
    Nat × Nat × RedisState :=
  let r := cleanup_stale_references up s now
  (200, r.1, r.2)

/-- The worker-pool state of `RestTokenManager`: the configured size,
the self-reported running count, one shutdown event per worker slot
(`true` = set), the active flag, and the thread capacity of the
`ThreadPoolExecutor` (fixed at construction time and never resized). -/
structure PoolState where
  max_workers : Nat
  workers_running : Nat
  worker_shutdown_events : List Bool
  generation_active : Bool
  executor_capacity : Nat
deriving DecidableEq, Repr

/-- The pool as `RestTokenManager.__init__` leaves it: `max_workers = 3`,
nothing running, inactive, and a `ThreadPoolExecutor(max_workers=3)`. -/
def initialPool : PoolState := ⟨3, 0, [], false, 3⟩

/-- `RestTokenManager.start_token_generation`.  Returns the
`(success, message)` pair, the new pool state, and the list of worker
submissions, each as `(worker_id, shutdown event index)` exactly as
`executor.submit(self.token_worker, i + 1, self.worker_shutdown_events[i])`
issues them.  Note the Python `workers or self.max_workers`: a `None`
or `0` argument falls back to the previous `max_workers`. -/
def start_token_generation (s : PoolState) (workers : Option Nat) :
    (Bool × String) × PoolState × List (Nat × Nat) :=
  if s.generation_active then
    ((false, "Token generation already active"), s, [])
  else
    let mw := match workers with
      | none => s.max_workers
      | some w => if w = 0 then s.max_workers else w
    let s1 := { s with
      generation_active := true
      max_workers := mw
      worker_shutdown_events := List.replicate mw false }
    ((true, "Started " ++ toString mw ++ " workers"), s1,
      (List.range mw).map (fun i => (i + 1, i)))

/-- `RestTokenManager.stop_token_generation`: rejected when inactive;
otherwise clears the active flag and sets every worker's shutdown
event.  The bounded real-time wait on `workers_running` is not
modelled (it affects timing only, not the returned value or the
signalling). -/
def stop_token_generation (s : PoolState) : (Bool × String) × PoolState :=
  if s.generation_active = false then
    ((false, "Token generation not active"), s)
  else
    ((true, "Token generation stopped"),
      { s with
        generation_active := false
        worker_shutdown_events := s.worker_shutdown_events.map (fun _ => true) })

/-!
Part 2: the on-demand single-session server of `src/token-comprasnet.py`.

External effects are driven by an explicit environment: each call of
`driver.execute_script` consumes the next `SolveOutcome`, and each run
of `_initialize_browser` consumes the next `InitOutcome`.  The page
contents and the real browser are outside the model; `driver` records
only whether `self.driver` is set (truthy), which is all the code
inspects.  `driver.quit()` leaves `self.driver` assigned, so it does
not clear the flag.
-/

/-- Result of one `driver.execute_script` call in `_generate_token`:
a truthy token string, a falsy result (`None`/empty, no exception), or
a raised exception. -/
inductive SolveOutcome
  | ok (tok : String)
  | falsy
  | err
deriving DecidableEq, Repr

/-- Whether a solve outcome produced a token. -/
def SolveOutcome.isOk : SolveOutcome → Bool
  | .ok _ => true
  | _ => false

/-- Result of one `_initialize_browser` run: success, or an exception
before `Driver()` assigned (`self.driver` keeps its old value), or an
exception after it (`self.driver` holds the fresh driver). -/
inductive InitOutcome
  | ok
  | failEarly
  | failLate
deriving DecidableEq, Repr

/-- The environment feeding the on-demand server's external calls. -/
structure OdEnv where
  solves : List SolveOutcome
  inits : List InitOutcome
deriving DecidableEq, Repr

/-- The mutable state of `OnDemandTokenServer`: `browser_ready`,
whether `self.driver` is set, and `last_keepalive`. -/
structure OnState where
  browser_ready : Bool
  driver : Bool
  last_keepalive : Int
deriving DecidableEq, Repr

/-- `OnDemandTokenServer.keepalive_interval` (300 s). -/
def keepaliveInterval : Int := 300

/-- `OnDemandTokenServer._initialize_browser` at wall-clock `now`.
On success it sets `browser_ready`, the driver, and `last_keepalive`;
on any exception the `except` clause only clears `browser_ready`.
An exhausted environment counts as a failed run. -/
def initBrowser (env : OdEnv) (s : OnState) (now : Int) : OnState × OdEnv :=
  match env.inits with
  | [] => ({ s with browser_ready := false }, env)
  | o :: rest =>
    match o with
    | .ok =>
      ({ browser_ready := true, driver := true, last_keepalive := now },
        { env with inits := rest })
    | .failEarly =>
      ({ s with browser_ready := false }, { env with inits := rest })
    | .failLate =>
      ({ s with browser_ready := false, driver := true }, { env with inits := rest })

/-- `OnDemandTokenServer._generate_token` at wall-clock `now` (caller
holds the lock).  Not ready or no driver: returns `None` untouched.
Otherwise one `execute_script` call: a truthy result is returned as
the token; a falsy result returns `None` with no state change; an
exception clears `browser_ready`, quits the driver (the reference
stays assigned) and synchronously reruns `_initialize_browser`,
then returns `None`.  An exhausted solve environment acts as a falsy
result. -/
def generate_token (env : OdEnv) (s : OnState) (now : Int) :
    Option String × OnState × OdEnv :=
  if s.browser_ready && s.driver then
    match env.solves with
    | [] => (none, s, env)
    | o :: rest =>
      match o with
      | .ok t => (some t, s, { env with solves := rest })
      | .falsy => (none, s, { env with solves := rest })
      | .err =>
        let s1 := { s with browser_ready := false }
        let r := initBrowser { env with solves := rest } s1 now
        (none, r.1, r.2)
  else (none, s, env)

/-- Errors `OnDemandTokenServer.get_token` raises. -/
inductive TokenErr
  | notReady
  | generationFailed
deriving DecidableEq, Repr

/-- `OnDemandTokenServer.get_token` at wall-clock `now`: fail fast when
not ready; otherwise solve once, on a missing token refresh the page
(`_refresh_page`, which changes none of the modelled state) and solve
once more; raise `generationFailed` when both attempts miss; on success
set `last_keepalive` and return the token. -/
def get_token (env : OdEnv) (s : OnState) (now : Int) :
    Except TokenErr String × OnState × OdEnv :=
  if s.browser_ready = false then (.error .notReady, s, env)
  else
    match generate_token env s now with
    | (some t, s1, e1) => (.ok t, { s1 with last_keepalive := now }, e1)
    | (none, s1, e1) =>
      match generate_token e1 s1 now with
      | (some t, s2, e2) => (.ok t, { s2 with last_keepalive := now }, e2)
      | (none, s2, e2) => (.error .generationFailed, s2, e2)

/-- One iteration of the keepalive loop body (`keepalive_worker`),
entered at wall-clock `now`: skip when not ready or not yet idle for
`keepalive_interval`; otherwise solve under the lock.  A token
records the time.  A missing token is followed by a bare page
refresh (`self.driver.get(self.url)`), still inside the loop's inner
`try`: `refreshOk` is false when that refresh raises, in which case
the `except` clause clears `browser_ready`, quits the driver (the
reference stays assigned) and synchronously reruns
`_initialize_browser`; when the refresh succeeds nothing else
changes. -/
def keepalive_step (refreshOk : Bool) (env : OdEnv) (s : OnState) (now : Int) :
    OnState × OdEnv :=
  if s.browser_ready = false then (s, env)
  else if keepaliveInterval ≤ now - s.last_keepalive then
    match generate_token env s now with
    | (some _, s1, e1) => ({ s1 with last_keepalive := now }, e1)
    | (none, s1, e1) =>
      if refreshOk then (s1, e1)
      else initBrowser e1 { s1 with browser_ready := false } now
  else (s, env)

/-!
Specification-side iterators over the store, used to state the
ordering property of §8: a batch of `add_token` calls followed by
repeated `get_newest_token` calls.
-/

/-- Run `add_token` for each record in order; each add happens at the
wall-clock instant recorded in the record (`timestamp = time.time()`
is taken immediately before the add in `token_worker`). -/
def addAll : RedisState → List TokenData → RedisState
  | s, [] => s
  | s, d :: ds => addAll (add_token s d.timestamp d) ds

/-- Pop repeatedly (at most `fuel` times), collecting the returned
records, stopping at the first empty result. -/
def popAll : RedisState → Int → Nat → List TokenData × RedisState
  | s, _, 0 => ([], s)
  | s, now, fuel + 1 =>
    match get_newest_token .ok s now with
    | (none, s1) => ([], s1)
    | (some d, s1) =>
      let r := popAll s1 now fuel
      (d :: r.1, r.2)

/-- The index entry `add_token` creates for a record. -/
def zentry (d : TokenData) : String × Int := (tokenKey d.token, d.timestamp)

/-- Effect of one `add_token` on the set of records the store holds:
the new record is present and any record sharing its derived key is
overwritten. -/
def upsert (R : List TokenData) (d : TokenData) : List TokenData :=
  d :: R.filter (fun e => tokenKey e.token ≠ tokenKey d.token)

/-- The records still retrievable after a batch of adds over a store
already holding `R`: last write per derived key wins. -/
def survivors : List TokenData → List TokenData → List TokenData
  | R, [] => R
  | R, d :: ds => survivors (upsert R d) ds

/-- The store faithfully represents the record collection `R` at
wall-clock `now`: the sorted set holds exactly the index entries of
`R`, timestamps in `R` are pairwise distinct, and each record's value
entry is present and unexpired under its derived key. -/
structure StoreRep (s : RedisState) (now : Int) (R : List TokenData) : Prop where
  perm : s.zset.Perm (R.map zentry)
  distinct : R.Pairwise (fun a b => a.timestamp ≠ b.timestamp)
  live : ∀ d ∈ R, ∃ exp, kvFind s.kv (tokenKey d.token) = some (d, exp) ∧ now < exp

theorem kvFind_filter_ne (l : List (String × TokenData × Int)) (k k' : String)
    (h : k' ≠ k) :
    kvFind (l.filter (fun e => e.1 ≠ k)) k' = kvFind l k' := by
  induction l with
  | nil => rfl
  | cons e rest ih =>
    simp only [ne_eq, decide_not] at ih ⊢
    by_cases he : e.1 = k
    · simp [List.filter_cons, he, kvFind, Ne.symm h, ih]
    · simp [List.filter_cons, he, kvFind, ih]

theorem zmaxEntry_mem : ∀ {l : List (String × Int)} {m : String × Int},
    zmaxEntry l = some m → m ∈ l := by
  intro l
  induction l with
  | nil => intro m h; cases h
  | cons e rest ih =>
    intro m h
    cases hr : zmaxEntry rest with
    | none =>
      simp only [zmaxEntry, hr, Option.some.injEq] at h
      subst h
      exact List.mem_cons_self _ _
    | some m' =>
      simp only [zmaxEntry, hr] at h
      by_cases hb : zBetter m' e = true
      · simp only [if_pos hb, Option.some.injEq] at h
        subst h
        exact List.mem_cons_of_mem _ (ih hr)
      · simp only [if_neg hb, Option.some.injEq] at h
        subst h
        exact List.mem_cons_self _ _

theorem zmaxEntry_eq_of_max (l : List (String × Int)) (x : String × Int)
    (hx : x ∈ l) (hmax : ∀ y ∈ l, y ≠ x → y.2 < x.2) : zmaxEntry l = some x := by
  induction l with
  | nil => cases hx
  | cons e rest ih =>
    rcases List.mem_cons.mp hx with hxe | hxr
    · subst hxe
      cases hr : zmaxEntry rest with
      | none => simp [zmaxEntry, hr]
      | some m =>
        have hm : m ∈ rest := zmaxEntry_mem hr
        by_cases hme : m = x
        · subst hme; simp [zmaxEntry, hr]
        · have hlt : m.2 < x.2 := hmax m (List.mem_cons_of_mem _ hm) hme
          have hzb : zBetter m x = false := by
            have h1 : ¬ x.2 < m.2 := not_lt.mpr hlt.le
            have h2 : m.2 ≠ x.2 := ne_of_lt hlt
            simp [zBetter, h1, h2]
          simp [zmaxEntry, hr, hzb]
    · have ihx := ih hxr (fun y hy hne => hmax y (List.mem_cons_of_mem _ hy) hne)
      by_cases hex : e = x
      · subst hex
        simp [zmaxEntry, ihx]
      · have hlt : e.2 < x.2 := hmax e (List.mem_cons_self e rest) hex
        have hzb : zBetter x e = true := by simp [zBetter, hlt]
        simp [zmaxEntry, ihx, hzb]

theorem exists_max_ts (l : List TokenData) (h : l ≠ []) :
    ∃ d, d ∈ l ∧ ∀ e ∈ l, e.timestamp ≤ d.timestamp := by
  induction l with
  | nil => exact absurd rfl h
  | cons a rest ih =>
    rcases eq_or_ne rest [] with hr | hr
    · subst hr
      refine ⟨a, List.mem_cons_self a [], ?_⟩
      intro e he
      rcases List.mem_cons.mp he with rfl | he'
      · exact le_refl _
      · cases he'
    · obtain ⟨d, hd, hmax⟩ := ih hr
      rcases le_total a.timestamp d.timestamp with hc | hc
      · refine ⟨d, List.mem_cons_of_mem _ hd, ?_⟩
        intro e he
        rcases List.mem_cons.mp he with rfl | he'
        · exact hc
        · exact hmax e he'
      · refine ⟨a, List.mem_cons_self a rest, ?_⟩
        intro e he
        rcases List.mem_cons.mp he with rfl | he'
        · exact le_refl _
        · exact (hmax e he').trans hc

theorem StoreRep.permR {s : RedisState} {now : Int} {R R2 : List TokenData}
    (h : StoreRep s now R) (hp : R.Perm R2) : StoreRep s now R2 where
  perm := h.perm.trans (hp.map zentry)
  distinct := (hp.pairwise_iff (fun hab => hab.symm)).mp h.distinct
  live := fun d hd => h.live d (hp.mem_iff.mpr hd)

theorem erase_inst_eq (l : List (String × Int)) (a : String × Int) :
    l.erase a = @List.erase (String × Int) instBEqOfDecidableEq l a := by
  induction l with
  | nil => rfl
  | cons e rest ih =>
    rw [List.erase_cons, @List.erase_cons _ instBEqOfDecidableEq, ih]
    by_cases h : e = a
    · have p1 : (e == a) = true := by simp [h]
      have p2 : (@BEq.beq _ instBEqOfDecidableEq e a) = true := decide_eq_true h
      rw [p1, p2]
    · have p1 : (e == a) = false := by simp [h]
      have p2 : (@BEq.beq _ instBEqOfDecidableEq e a) = false := decide_eq_false h
      rw [p1, p2]

theorem pop_empty (s : RedisState) (now : Int) (h : s.zset = []) :
    get_newest_token .ok s now = (none, s) := by
  simp [get_newest_token, getNewestTokenBody, redisZpopmax, h, zmaxEntry]

theorem pop_step (s : RedisState) (now : Int) (d : TokenData) (R : List TokenData)
    (h : StoreRep s now (d :: R))
    (hmax : ∀ e ∈ R, e.timestamp < d.timestamp) :
    get_newest_token .ok s now
      = (some d, ⟨s.kv.filter (fun e => e.1 ≠ tokenKey d.token), s.zset.erase (zentry d)⟩)
    ∧ StoreRep ⟨s.kv.filter (fun e => e.1 ≠ tokenKey d.token), s.zset.erase (zentry d)⟩
        now R := by
  have hxmem : zentry d ∈ s.zset :=
    h.perm.mem_iff.mpr (List.mem_map_of_mem zentry (List.mem_cons_self d R))
  have hmax' : ∀ y ∈ s.zset, y ≠ zentry d → y.2 < (zentry d).2 := by
    intro y hy hne
    rcases List.mem_map.mp (h.perm.mem_iff.mp hy) with ⟨e, he, rfl⟩
    rcases List.mem_cons.mp he with rfl | heR
    · exact absurd rfl hne
    · exact hmax e heR
  have hz : zmaxEntry s.zset = some (zentry d) := zmaxEntry_eq_of_max _ _ hxmem hmax'
  obtain ⟨exp, hkv, hlt⟩ := h.live d (List.mem_cons_self d R)
  have hpop : get_newest_token .ok s now
      = (some d, ⟨s.kv.filter (fun e => e.1 ≠ tokenKey d.token),
          s.zset.erase (zentry d)⟩) := by
    simp [get_newest_token, getNewestTokenBody, redisZpopmax, hz, redisGet, redisDel,
      hkv, hlt, zentry]
  refine ⟨hpop, ?_, ?_, ?_⟩
  · have hp := h.perm.erase (zentry d)
    simp only [← erase_inst_eq] at hp
    simpa using hp
  · exact (List.pairwise_cons.mp h.distinct).2
  · intro e heR
    obtain ⟨exp2, hkv2, hlt2⟩ := h.live e (List.mem_cons_of_mem _ heR)
    have hkne : tokenKey e.token ≠ tokenKey d.token := by
      intro hk
      rw [hk, hkv] at hkv2
      have hde : d = e ∧ exp = exp2 := by simpa using hkv2
      rcases hde with ⟨rfl, -⟩
      exact lt_irrefl _ (hmax d heR)
    refine ⟨exp2, ?_, hlt2⟩
    show kvFind (s.kv.filter (fun e => e.1 ≠ tokenKey d.token)) (tokenKey e.token)
      = some (e, exp2)
    rw [kvFind_filter_ne _ _ _ hkne]
    exact hkv2

theorem popAll_spec : ∀ (fuel : Nat) (R : List TokenData) (s : RedisState) (now : Int),
    StoreRep s now R → R.length ≤ fuel →
    (popAll s now fuel).1.Perm R
    ∧ (popAll s now fuel).1.Pairwise (fun a b => b.timestamp < a.timestamp)
    ∧ (popAll s now fuel).2.zset = [] := by
  intro fuel
  induction fuel with
  | zero =>
    intro R s now h hle
    have hR : R = [] := List.length_eq_zero.mp (Nat.le_zero.mp hle)
    subst hR
    have hz : s.zset = [] := List.length_eq_zero.mp (by simpa using h.perm.length_eq)
    exact ⟨List.Perm.refl _, List.Pairwise.nil, hz⟩
  | succ n ih =>
    intro R s now h hle
    rcases eq_or_ne R [] with rfl | hR
    · have hz : s.zset = [] := List.length_eq_zero.mp (by simpa using h.perm.length_eq)
      have hstep : popAll s now (n + 1) = ([], s) := by
        simp only [popAll]
        rw [pop_empty s now hz]
      rw [hstep]
      exact ⟨List.Perm.refl _, List.Pairwise.nil, hz⟩
    · obtain ⟨d, hd, hdmax⟩ := exists_max_ts R hR
      have hperm : R.Perm (d :: R.erase d) := List.perm_cons_erase hd
      have h2 : StoreRep s now (d :: R.erase d) := h.permR hperm
      have hnodup : R.Nodup :=
        h.distinct.imp (fun hab hEq => hab (congrArg TokenData.timestamp hEq))
      have hstrict : ∀ e ∈ R.erase d, e.timestamp < d.timestamp := by
        intro e he
        have heR : e ∈ R := List.mem_of_mem_erase he
        have hne : e ≠ d := ((List.Nodup.mem_erase_iff hnodup).mp he).1
        have hts : e.timestamp ≠ d.timestamp :=
          h.distinct.forall (fun _ _ hab => hab.symm) heR hd hne
        exact lt_of_le_of_ne (hdmax e heR) hts
      obtain ⟨hpop, hrep2⟩ := pop_step s now d (R.erase d) h2 hstrict
      have hlen2 : (R.erase d).length ≤ n := by
        have h1 : (R.erase d).length = R.length - 1 := List.length_erase_of_mem hd
        have h2' : 0 < R.length := List.length_pos.mpr hR
        omega
      obtain ⟨ihp, ihpw, ihz⟩ := ih (R.erase d) _ now hrep2 hlen2
      have hstep : popAll s now (n + 1)
          = (d :: (popAll ⟨s.kv.filter (fun e => e.1 ≠ tokenKey d.token),
                s.zset.erase (zentry d)⟩ now n).1,
             (popAll ⟨s.kv.filter (fun e => e.1 ≠ tokenKey d.token),
                s.zset.erase (zentry d)⟩ now n).2) := by
        simp only [popAll]
        rw [hpop]
      refine ⟨?_, ?_, ?_⟩
      · rw [hstep]
        exact (ihp.cons d).trans hperm.symm
      · rw [hstep]
        refine List.pairwise_cons.mpr ⟨?_, ihpw⟩
        intro e he
        exact hstrict e (ihp.subset he)
      · rw [hstep]
        exact ihz

theorem zentry_map_filter (R : List TokenData) (k : String) :
    (R.filter (fun e => tokenKey e.token ≠ k)).map zentry
      = (R.map zentry).filter (fun y => y.1 ≠ k) := by
  induction R with
  | nil => rfl
  | cons a rest ih =>
    simp only [ne_eq, decide_not] at ih ⊢
    by_cases ha : tokenKey a.token = k
    · simp [List.filter_cons, ha, zentry, ih]
    · simp [List.filter_cons, ha, zentry, ih]

theorem add_step (s : RedisState) (now : Int) (R : List TokenData) (d : TokenData)
    (h : StoreRep s now R)
    (hts : ∀ e ∈ R, d.timestamp ≠ e.timestamp)
    (hexp : now < d.timestamp + tokenExpiry) :
    StoreRep (add_token s d.timestamp d) now (upsert R d) := by
  have hadd : add_token s d.timestamp d
      = ⟨(tokenKey d.token, d, d.timestamp + tokenExpiry)
            :: s.kv.filter (fun e => e.1 ≠ tokenKey d.token),
         (tokenKey d.token, d.timestamp)
            :: s.zset.filter (fun e => e.1 ≠ tokenKey d.token)⟩ := by
    simp [add_token, redisZadd, redisSetex]
  rw [hadd]
  refine ⟨?_, ?_, ?_⟩
  · have hmap : (upsert R d).map zentry
        = zentry d :: (R.map zentry).filter (fun y => y.1 ≠ tokenKey d.token) := by
      have hz := zentry_map_filter R (tokenKey d.token)
      show (d :: R.filter (fun e => tokenKey e.token ≠ tokenKey d.token)).map zentry = _
      rw [List.map_cons]
      simp only [ne_eq, decide_not] at hz ⊢
      rw [hz]
    show ((tokenKey d.token, d.timestamp)
        :: s.zset.filter (fun e => e.1 ≠ tokenKey d.token)).Perm ((upsert R d).map zentry)
    rw [hmap]
    exact List.Perm.cons _ (h.perm.filter _)
  · refine List.pairwise_cons.mpr ⟨?_, ?_⟩
    · intro e he
      exact hts e (List.mem_of_mem_filter he)
    · exact List.Pairwise.sublist (List.filter_sublist R) h.distinct
  · intro e he
    rcases List.mem_cons.mp he with rfl | heF
    · exact ⟨e.timestamp + tokenExpiry, by simp [kvFind], hexp⟩
    · have heR : e ∈ R := List.mem_of_mem_filter heF
      have hkne : tokenKey e.token ≠ tokenKey d.token := by
        have := (List.mem_filter.mp heF).2
        simpa using this
      obtain ⟨exp2, hkv2, hlt2⟩ := h.live e heR
      refine ⟨exp2, ?_, hlt2⟩
      show kvFind ((tokenKey d.token, d, d.timestamp + tokenExpiry)
          :: s.kv.filter (fun e => e.1 ≠ tokenKey d.token)) (tokenKey e.token)
        = some (e, exp2)
      rw [kvFind, if_neg (Ne.symm hkne), kvFind_filter_ne _ _ _ hkne]
      exact hkv2

theorem addAll_rep : ∀ (recs R : List TokenData) (s : RedisState) (now : Int),
    StoreRep s now R →
    recs.Pairwise (fun a b => a.timestamp ≠ b.timestamp) →
    (∀ a ∈ recs, ∀ e ∈ R, a.timestamp ≠ e.timestamp) →
    (∀ a ∈ recs, now < a.timestamp + tokenExpiry) →
    StoreRep (addAll s recs) now (survivors R recs) := by
  intro recs
  induction recs with
  | nil =>
    intro R s now h _ _ _
    exact h
  | cons d ds ih =>
    intro R s now h hpw hdisj hexp
    have h1 : StoreRep (add_token s d.timestamp d) now (upsert R d) :=
      add_step s now R d h (fun e he => hdisj d (List.mem_cons_self d ds) e he)
        (hexp d (List.mem_cons_self d ds))
    show StoreRep (addAll (add_token s d.timestamp d) ds) now (survivors (upsert R d) ds)
    apply ih (upsert R d) _ now h1
    · exact (List.pairwise_cons.mp hpw).2
    · intro a ha e he
      rcases List.mem_cons.mp he with rfl | heF
      · exact ((List.pairwise_cons.mp hpw).1 a ha).symm
      · exact hdisj a (List.mem_cons_of_mem _ ha) e (List.mem_of_mem_filter heF)
    · intro a ha
      exact hexp a (List.mem_cons_of_mem _ ha)

theorem survivors_mem : ∀ (recs R : List TokenData) (e : TokenData),
    e ∈ survivors R recs → e ∈ R ∨ e ∈ recs := by
  intro recs
  induction recs with
  | nil =>
    intro R e he
    exact Or.inl he
  | cons d ds ih =>
    intro R e he
    rcases ih (upsert R d) e he with h1 | h1
    · rcases List.mem_cons.mp h1 with rfl | hF
      · exact Or.inr (List.mem_cons_self _ _)
      · exact Or.inl (List.mem_of_mem_filter hF)
    · exact Or.inr (List.mem_cons_of_mem _ h1)

theorem survivors_perm_of_distinct_keys :
    ∀ (recs R : List TokenData),
    recs.Pairwise (fun a b => tokenKey a.token ≠ tokenKey b.token) →
    (∀ a ∈ recs, ∀ e ∈ R, tokenKey a.token ≠ tokenKey e.token) →
    (survivors R recs).Perm (R ++ recs) := by
  intro recs
  induction recs with
  | nil =>
    intro R _ _
    simp [survivors]
  | cons d ds ih =>
    intro R hpw hdisj
    have hfilt : R.filter (fun e => tokenKey e.token ≠ tokenKey d.token) = R := by
      apply List.filter_eq_self.mpr
      intro a ha
      simpa using (hdisj d (List.mem_cons_self d ds) a ha).symm
    have h1 : (survivors (upsert R d) ds).Perm ((upsert R d) ++ ds) := by
      apply ih (upsert R d)
      · exact (List.pairwise_cons.mp hpw).2
      · intro a ha e he
        rcases List.mem_cons.mp he with rfl | hF
        · exact ((List.pairwise_cons.mp hpw).1 a ha).symm
        · exact hdisj a (List.mem_cons_of_mem _ ha) e (List.mem_of_mem_filter hF)
    show (survivors (upsert R d) ds).Perm (R ++ d :: ds)
    have h2 : (upsert R d) ++ ds = (d :: R) ++ ds := by rw [upsert, hfilt]
    rw [h2] at h1
    exact h1.trans List.perm_middle.symm

/-- C1: for every sequence of `add_token` calls with pairwise-distinct
`issuedAt` timestamps followed by repeated `get_newest_token` calls
(all before any value entry expires), the pops return the records the
store holds in strictly decreasing `issuedAt` order until the store is
empty: the popped sequence is strictly decreasing in timestamp, it is
a permutation of the records still stored after the add phase (last
write per derived key wins), every popped record is one of the added
ones, the index is empty afterwards and a further pop returns `None`;
when the added records have pairwise-distinct derived keys the pops
return exactly the added records. -/
theorem pops_return_newest_first (recs : List TokenData) (now : Int)
    (hts : recs.Pairwise (fun a b => a.timestamp ≠ b.timestamp))
    (hfresh : ∀ d ∈ recs, now < d.timestamp + tokenExpiry) :
    ((popAll (addAll emptyStore recs) now (redisZcard (addAll emptyStore recs))).1.Pairwise
        (fun a b => b.timestamp < a.timestamp))
    ∧ (popAll (addAll emptyStore recs) now (redisZcard (addAll emptyStore recs))).1.Perm
        (survivors [] recs)
    ∧ (∀ d ∈ (popAll (addAll emptyStore recs) now
        (redisZcard (addAll emptyStore recs))).1, d ∈ recs)
    ∧ (popAll (addAll emptyStore recs) now (redisZcard (addAll emptyStore recs))).2.zset = []
    ∧ get_newest_token .ok
        (popAll (addAll emptyStore recs) now (redisZcard (addAll emptyStore recs))).2 now
      = (none, (popAll (addAll emptyStore recs) now
          (redisZcard (addAll emptyStore recs))).2)
    ∧ (recs.Pairwise (fun a b => tokenKey a.token ≠ tokenKey b.token) →
        (popAll (addAll emptyStore recs) now
          (redisZcard (addAll emptyStore recs))).1.Perm recs) := by
  have h0 : StoreRep emptyStore now [] :=
    ⟨List.Perm.nil, List.Pairwise.nil, fun d hd => absurd hd (List.not_mem_nil d)⟩
  have hrep : StoreRep (addAll emptyStore recs) now (survivors [] recs) :=
    addAll_rep recs [] emptyStore now h0 hts
      (fun a _ e he => absurd he (List.not_mem_nil e)) hfresh
  have hlen : (survivors [] recs).length ≤ redisZcard (addAll emptyStore recs) := by
    have h1 := hrep.perm.length_eq
    rw [List.length_map] at h1
    exact le_of_eq h1.symm
  obtain ⟨hperm, hpw, hz⟩ := popAll_spec _ _ _ now hrep hlen
  refine ⟨hpw, hperm, ?_, hz, pop_empty _ now hz, ?_⟩
  · intro d hd
    rcases survivors_mem recs [] d (hperm.subset hd) with h1 | h1
    · cases h1
    · exact h1
  · intro hkeys
    have hsp : (survivors [] recs).Perm ([] ++ recs) :=
      survivors_perm_of_distinct_keys recs [] hkeys
        (fun a _ e he => absurd he (List.not_mem_nil e))
    simpa using hperm.trans hsp

/-- Concrete record for the specification scenario (issuedAt 100). -/
def recA : TokenData := ⟨"alphaTok", 1, 1, 100, "rest_api"⟩

/-- Concrete record for the specification scenario (issuedAt 105). -/
def recB : TokenData := ⟨"betaTok", 1, 2, 105, "rest_api"⟩

/-- Concrete record for the specification scenario (issuedAt 103). -/
def recC : TokenData := ⟨"gammaTok", 1, 3, 103, "rest_api"⟩

/-- Witness for C1 at the spec's scenario: adding records with
issuedAt 100, 105, 103 and popping three times returns exactly those
records, strictly newest-first. -/
theorem pops_return_newest_first_witness :
    ((popAll (addAll emptyStore [recA, recB, recC]) 150
        (redisZcard (addAll emptyStore [recA, recB, recC]))).1.Perm [recA, recB, recC])
    ∧ ((popAll (addAll emptyStore [recA, recB, recC]) 150
        (redisZcard (addAll emptyStore [recA, recB, recC]))).1.Pairwise
          (fun a b => b.timestamp < a.timestamp)) :=
  ⟨(pops_return_newest_first [recA, recB, recC] 150 (by decide)
      (by decide)).2.2.2.2.2 (by decide),
   (pops_return_newest_first [recA, recB, recC] 150 (by decide) (by decide)).1⟩

/-- C2 counterexample: at `now = 200` the sweep cutoff is
`200 - 120 - 60 = 20`; on a store whose only index entry has score
exactly 20 — at, hence at-or-above, the cutoff — the claim's second
half "every index entry whose score is at or above that cutoff is
left untouched" is false at this concrete input: the sweep removes
the entry (Redis's `ZREMRANGEBYSCORE` upper bound is inclusive),
leaving the index empty. -/
theorem sweep_cutoff_boundary_cex :
    ¬ (∀ e ∈ (⟨[], [("rest_token:k", (20 : Int))]⟩ : RedisState).zset,
        200 - tokenExpiry - 60 ≤ e.2 →
        e ∈ (cleanup_stale_references true
              ⟨[], [("rest_token:k", (20 : Int))]⟩ 200).2.zset)
    ∧ (20 : Int) = 200 - tokenExpiry - 60
    ∧ ("rest_token:k", (20 : Int))
        ∈ (⟨[], [("rest_token:k", (20 : Int))]⟩ : RedisState).zset
    ∧ (cleanup_stale_references true ⟨[], [("rest_token:k", (20 : Int))]⟩ 200).2.zset
        = [] := by
  decide

/-- C2 (amended): after a successful sweep at wall-clock `now`, the
index holds exactly the entries whose score is strictly greater than
the cutoff `now - expiry - buffer`: no entry with score strictly
below the cutoff remains (the claim's first half, as stated) and none
at the cutoff either — the eviction range is inclusive of the cutoff
— while every entry with score strictly above the cutoff is left
untouched; value entries are untouched and the returned count is the
number of index entries removed. -/
theorem sweep_spec (s : RedisState) (now : Int) :
    (cleanup_stale_references true s now).2.zset
        = s.zset.filter (fun e => now - tokenExpiry - 60 < e.2)
    ∧ (∀ e ∈ (cleanup_stale_references true s now).2.zset,
        ¬ e.2 < now - tokenExpiry - 60)
    ∧ (∀ e ∈ (cleanup_stale_references true s now).2.zset,
        now - tokenExpiry - 60 < e.2)
    ∧ (∀ e ∈ s.zset, e.2 ≤ now - tokenExpiry - 60 →
        e ∉ (cleanup_stale_references true s now).2.zset)
    ∧ (∀ e ∈ s.zset, now - tokenExpiry - 60 < e.2 →
        e ∈ (cleanup_stale_references true s now).2.zset)
    ∧ (cleanup_stale_references true s now).2.kv = s.kv
    ∧ (cleanup_stale_references true s now).1
        = s.zset.length
          - (s.zset.filter (fun e => now - tokenExpiry - 60 < e.2)).length := by
  have hz : (cleanup_stale_references true s now).2.zset
      = s.zset.filter (fun e => now - tokenExpiry - 60 < e.2) := rfl
  have habove : ∀ e ∈ (cleanup_stale_references true s now).2.zset,
      now - tokenExpiry - 60 < e.2 := by
    intro e he
    rw [hz] at he
    simpa using (List.mem_filter.mp he).2
  refine ⟨hz, ?_, habove, ?_, ?_, rfl, rfl⟩
  · intro e he
    exact not_lt_of_gt (habove e he)
  · intro e _ hle hmem
    exact absurd hle (not_le_of_gt (habove e hmem))
  · intro e he hgt
    rw [hz]
    exact List.mem_filter.mpr ⟨he, by simpa using hgt⟩

/-- C5 counterexample: with the store down (the sweep's Redis call
raises) and a stale index entry present, `POST /cleanup` still
answers 200 with `removed = 0` and the stale entry intact — not a
500 error. -/
theorem cleanup_route_cex :
    (route_cleanup false ⟨[], [("rest_token:x", (0 : Int))]⟩ 1000).1 = 200
    ∧ (route_cleanup false ⟨[], [("rest_token:x", (0 : Int))]⟩ 1000).2
        = (0, ⟨[], [("rest_token:x", (0 : Int))]⟩)
    ∧ (200 : Nat) ≠ 500 := by
  decide

/-- C5 (amended): a sweep error is caught inside
`cleanup_stale_references` itself, which returns 0, so `POST
/cleanup` answers 200 whether or not the sweep errored; on a sweep
error it reports success with 0 removed and the store unchanged —
the handler's 500 branch is unreachable for sweep errors. -/
theorem cleanup_route_always_200 (up : Bool) (s : RedisState) (now : Int) :
    (route_cleanup up s now).1 = 200
    ∧ route_cleanup false s now = (200, 0, s) :=
  ⟨rfl, rfl⟩

/-- C7: starting while the pool is already active is rejected with
the already-active message, leaves the pool state unchanged and
submits no workers; stopping while inactive is rejected with the
not-active message and leaves the state unchanged. -/
theorem start_stop_guards (s : PoolState) (w : Option Nat) :
    (s.generation_active = true →
      start_token_generation s w
        = ((false, "Token generation already active"), s, []))
    ∧ (s.generation_active = false →
      stop_token_generation s = ((false, "Token generation not active"), s)) := by
  constructor
  · intro h
    simp [start_token_generation, h]
  · intro h
    simp [stop_token_generation, h]

/-- Witness for C7: a second `start` on an active 3-worker pool is
rejected with the pool untouched, and `stop` on the inert initial
pool is rejected. -/
theorem start_stop_guards_witness :
    start_token_generation ⟨3, 3, [false, false, false], true, 3⟩ (some 5)
      = ((false, "Token generation already active"),
         ⟨3, 3, [false, false, false], true, 3⟩, [])
    ∧ stop_token_generation initialPool
      = ((false, "Token generation not active"), initialPool) :=
  ⟨(start_stop_guards ⟨3, 3, [false, false, false], true, 3⟩ (some 5)).1 rfl,
   (start_stop_guards initialPool none).2 rfl⟩

/-- C6 counterexample: `start` with workerCount 0 succeeds but
records 3 and submits 3 workers (Python's `workers or
self.max_workers` treats 0 as falsy), not 0; and `start` with
workerCount 10 submits 10 workers while the executor's thread
capacity stays at its construction-time 3, so the 10 submitted
workers cannot all run concurrently. -/
theorem start_workers_cex :
    ((start_token_generation initialPool (some 0)).1.1 = true
      ∧ (start_token_generation initialPool (some 0)).2.1.max_workers = 3
      ∧ (start_token_generation initialPool (some 0)).2.2.length = 3)
    ∧ ((start_token_generation initialPool (some 10)).2.2.length = 10
      ∧ (start_token_generation initialPool (some 10)).2.1.executor_capacity = 3
      ∧ ¬ (10 : Nat) ≤ 3) := by
  refine ⟨⟨rfl, rfl, rfl⟩, ⟨rfl, rfl, by decide⟩⟩

/-- C6 (amended): for every positive workerCount, a successful
`start` on an inactive pool records that worker count, marks the pool
active, creates one fresh shutdown event per worker and submits
exactly workerCount workers, worker `i + 1` paired with its own event
index `i` (all event indices distinct); the executor's thread
capacity is left at its construction-time value, so not more than
that many of the submitted workers run concurrently. -/
theorem start_spawns_workers (s : PoolState) (w : Nat)
    (hactive : s.generation_active = false) (hw : w ≠ 0) :
    (start_token_generation s (some w)).1.1 = true
    ∧ (start_token_generation s (some w)).2.1.max_workers = w
    ∧ (start_token_generation s (some w)).2.1.generation_active = true
    ∧ (start_token_generation s (some w)).2.1.worker_shutdown_events
        = List.replicate w false
    ∧ (start_token_generation s (some w)).2.1.executor_capacity = s.executor_capacity
    ∧ (start_token_generation s (some w)).2.2
        = (List.range w).map (fun i => (i + 1, i))
    ∧ ((start_token_generation s (some w)).2.2.map Prod.snd).Nodup
    ∧ (start_token_generation s (some w)).2.2.length = w := by
  have hstart : start_token_generation s (some w)
      = ((true, "Started " ++ toString w ++ " workers"),
         ({ s with
            generation_active := true
            max_workers := w
            worker_shutdown_events := List.replicate w false } : PoolState),
         (List.range w).map (fun i => (i + 1, i))) := by
    simp [start_token_generation, hactive, hw]
  rw [hstart]
  refine ⟨rfl, rfl, rfl, rfl, rfl, rfl, ?_, by simp⟩
  have hm : ((List.range w).map (fun i => (i + 1, i))).map Prod.snd = List.range w := by
    rw [List.map_map]
    exact List.map_id (List.range w)
  rw [hm]
  exact List.nodup_range w

/-- Witness for C6 (amended) at workerCount 3 on the inert initial
pool. -/
theorem start_spawns_workers_witness :
    (start_token_generation initialPool (some 3)).1.1 = true
    ∧ (start_token_generation initialPool (some 3)).2.1.max_workers = 3
    ∧ (start_token_generation initialPool (some 3)).2.2.length = 3 :=
  ⟨(start_spawns_workers initialPool 3 rfl (by decide)).1,
   (start_spawns_workers initialPool 3 rfl (by decide)).2.1,
   (start_spawns_workers initialPool 3 rfl (by decide)).2.2.2.2.2.2.2⟩

/-- C8: popping an empty store (no index entries) returns the empty
result with the store untouched and raises nothing; and when the
popped index entry's value entry reads back absent (already expired),
the pop returns the empty result as a normal miss — no retry, no
error — with the stale index entry removed from the index. -/
theorem pop_empty_and_stale (s : RedisState) (now : Int) :
    (s.zset = [] → get_newest_token .ok s now = (none, s))
    ∧ (∀ k sc, zmaxEntry s.zset = some (k, sc) →
        redisGet { s with zset := s.zset.erase (k, sc) } k now = none →
        get_newest_token .ok s now
          = (none, { s with zset := s.zset.erase (k, sc) })) := by
  constructor
  · intro h
    exact pop_empty s now h
  · intro k sc hz hget
    simp [get_newest_token, getNewestTokenBody, redisZpopmax, hz, hget]

/-- Witness for C8: a pop on the empty store returns empty, and a pop
on a store whose only index entry points at a missing value entry
returns empty and leaves the index without that entry. -/
theorem pop_empty_and_stale_witness :
    get_newest_token .ok emptyStore 0 = (none, emptyStore)
    ∧ get_newest_token .ok ⟨[], [("rest_token:stale", (50 : Int))]⟩ 100
        = (none, { (⟨[], [("rest_token:stale", (50 : Int))]⟩ : RedisState) with
            zset := [("rest_token:stale", (50 : Int))].erase
              ("rest_token:stale", (50 : Int)) }) :=
  ⟨(pop_empty_and_stale emptyStore 0).1 rfl,
   (pop_empty_and_stale ⟨[], [("rest_token:stale", (50 : Int))]⟩ 100).2
     "rest_token:stale" 50 (by decide) (by decide)⟩

/-- C10: every exception raised inside `get_newest_token` — whichever
of its Redis calls fails — is caught and converted to the empty
result (a pure connection failure additionally leaves the store
untouched); `GET /token` answers 404 exactly when the pop came back
empty, so a store failure and an empty store produce the same 404 "No
tokens available" outcome and are indistinguishable to the caller. -/
theorem pop_errors_hidden (s : RedisState) (now : Int) :
    (get_newest_token .failPop s now = (none, s))
    ∧ (∀ m : ConnMode, m ≠ .ok → (get_newest_token m s now).1 = none)
    ∧ (∀ m : ConnMode,
        (route_get_token m s now).1 = 404 ↔ (get_newest_token m s now).1 = none)
    ∧ (route_get_token .failPop s now).1 = (route_get_token .ok emptyStore now).1 := by
  refine ⟨?_, ?_, ?_, ?_⟩
  · simp [get_newest_token, getNewestTokenBody]
  · intro m hm
    cases m with
    | ok => exact absurd rfl hm
    | failPop => simp [get_newest_token, getNewestTokenBody]
    | failGet =>
      cases hz : redisZpopmax s with
      | none => simp [get_newest_token, getNewestTokenBody, hz]
      | some r =>
        obtain ⟨⟨k, sc⟩, s1⟩ := r
        simp [get_newest_token, getNewestTokenBody, hz]
    | failDel =>
      cases hz : redisZpopmax s with
      | none => simp [get_newest_token, getNewestTokenBody, hz]
      | some r =>
        obtain ⟨⟨k, sc⟩, s1⟩ := r
        cases hg : redisGet s1 k now with
        | none => simp [get_newest_token, getNewestTokenBody, hz, hg]
        | some d => simp [get_newest_token, getNewestTokenBody, hz, hg]
  · intro m
    rcases hget : get_newest_token m s now with ⟨o, s1⟩
    cases o with
    | some d => simp [route_get_token, hget]
    | none => simp [route_get_token, hget]
  · simp [route_get_token, get_newest_token, getNewestTokenBody, redisZpopmax,
      emptyStore, zmaxEntry]

/-- Witness for C10: a failure of the value-entry read is reported as
the empty result, and the 404 criterion holds at a connection-failure
pop on the empty store. -/
theorem pop_errors_hidden_witness :
    (get_newest_token .failGet ⟨[], [("rest_token:a", (5 : Int))]⟩ 10).1 = none
    ∧ ((route_get_token .failPop emptyStore 0).1 = 404
        ↔ (get_newest_token .failPop emptyStore 0).1 = none) :=
  ⟨(pop_errors_hidden ⟨[], [("rest_token:a", (5 : Int))]⟩ 10).2.1 .failGet (by decide),
   (pop_errors_hidden emptyStore 0).2.2.1 .failPop⟩

/-- C9: two `add_token` calls whose tokens share the same
10-character suffix derive the same store key, so the second add
overwrites the first record's value entry and index entry: the key's
value entry then holds the second record with a fresh expiry, the
sorted-set cardinality does not increase on the second add, and —
from an empty store — popping yields the second record and then
empty, so the first record is never returned. -/
theorem same_suffix_overwrites (s : RedisState) (d1 d2 : TokenData)
    (now1 now2 now : Int)
    (hsuf : suffix10 d1.token = suffix10 d2.token)
    (hfresh : now < now2 + tokenExpiry) :
    tokenKey d1.token = tokenKey d2.token
    ∧ kvFind (add_token (add_token s now1 d1) now2 d2).kv (tokenKey d2.token)
        = some (d2, now2 + tokenExpiry)
    ∧ redisZcard (add_token (add_token s now1 d1) now2 d2)
        = redisZcard (add_token s now1 d1)
    ∧ (get_newest_token .ok (add_token (add_token emptyStore now1 d1) now2 d2) now).1
        = some d2
    ∧ (get_newest_token .ok
        (get_newest_token .ok
          (add_token (add_token emptyStore now1 d1) now2 d2) now).2 now).1 = none := by
  have hk : tokenKey d1.token = tokenKey d2.token := by
    simp [tokenKey, hsuf]
  have hstate : add_token (add_token emptyStore now1 d1) now2 d2
      = ⟨[(tokenKey d2.token, d2, now2 + tokenExpiry)],
         [(tokenKey d2.token, d2.timestamp)]⟩ := by
    simp [add_token, redisZadd, redisSetex, emptyStore, hk]
  have hpop1 : get_newest_token .ok
      (⟨[(tokenKey d2.token, d2, now2 + tokenExpiry)],
        [(tokenKey d2.token, d2.timestamp)]⟩ : RedisState) now
      = (some d2, ⟨[], []⟩) := by
    simp [get_newest_token, getNewestTokenBody, redisZpopmax, zmaxEntry, redisGet,
      kvFind, redisDel, hfresh]
  refine ⟨hk, ?_, ?_, ?_, ?_⟩
  · simp [add_token, redisZadd, redisSetex, kvFind]
  · simp only [add_token, redisZadd, redisSetex, redisZcard, hk]
    simp [List.filter_cons, List.filter_filter]
  · rw [hstate, hpop1]
  · rw [hstate, hpop1]
    rw [pop_empty ⟨[], []⟩ now rfl]

/-- Record for the C9 witness whose token ends in "sameSuffix". -/
def recX : TokenData := ⟨"XsameSuffix", 1, 1, 100, "rest_api"⟩

/-- Record for the C9 witness sharing the 10-character suffix of
`recX`. -/
def recY : TokenData := ⟨"YsameSuffix", 1, 2, 90, "rest_api"⟩

/-- Witness for C9: after adding `recX` then `recY` (same suffix)
from empty, the pop returns `recY`, the next pop is empty, and the
second add left the cardinality unchanged. -/
theorem same_suffix_overwrites_witness :
    (get_newest_token .ok (add_token (add_token emptyStore 100 recX) 101 recY) 102).1
      = some recY
    ∧ redisZcard (add_token (add_token emptyStore 100 recX) 101 recY)
      = redisZcard (add_token emptyStore 100 recX) :=
  ⟨(same_suffix_overwrites emptyStore recX recY 100 101 102 (by decide)
      (by decide)).2.2.2.1,
   (same_suffix_overwrites emptyStore recX recY 100 101 102 (by decide)
      (by decide)).2.2.1⟩

/-- C3 counterexample: from a ready session, two consecutive falsy
solve results (the script returned no token but raised no exception)
make `get_token` fail with `generationFailed` while `browser_ready`
is left `true` — not `false` as the claim states. -/
theorem get_token_ready_after_failure_cex :
    (get_token ⟨[.falsy, .falsy], [.ok]⟩ ⟨true, true, 0⟩ 50).1
        = .error .generationFailed
    ∧ (get_token ⟨[.falsy, .falsy], [.ok]⟩ ⟨true, true, 0⟩ 50).2.1.browser_ready
        = true :=
  ⟨rfl, rfl⟩

/-- C3 (amended): `get_token` fails fast with `notReady` when the
session is not ready; otherwise it solves once and, on a missing
token, refreshes the page and solves exactly once more; a token from
the first solve or from the retry is returned with `lastKeepaliveAt`
set to the call time (so any successful solve advances the keepalive
timestamp); when both attempts produce no token it raises
`generationFailed` — but `ready` is not necessarily left false:
after two falsy solve results the session remains ready (`ready`
ends false only when a raising solve's triggered reinitialization
failed). -/
theorem get_token_spec (s : OnState) (now : Int) :
    (∀ env : OdEnv, s.browser_ready = false →
      get_token env s now = (.error .notReady, s, env))
    ∧ (∀ t rest inits, s.browser_ready = true → s.driver = true →
      get_token ⟨.ok t :: rest, inits⟩ s now
        = (.ok t, { s with last_keepalive := now }, ⟨rest, inits⟩))
    ∧ (∀ t rest inits, s.browser_ready = true → s.driver = true →
      get_token ⟨.falsy :: .ok t :: rest, inits⟩ s now
        = (.ok t, { s with last_keepalive := now }, ⟨rest, inits⟩))
    ∧ (∀ o1 o2 rest inits, s.browser_ready = true → s.driver = true →
      o1.isOk = false → o2.isOk = false →
      (get_token ⟨o1 :: o2 :: rest, inits⟩ s now).1 = .error .generationFailed)
    ∧ (∀ rest inits, s.browser_ready = true → s.driver = true →
      (get_token ⟨.falsy :: .falsy :: rest, inits⟩ s now).2.1.browser_ready
        = true) := by
  refine ⟨?_, ?_, ?_, ?_, ?_⟩
  · intro env h
    simp [get_token, h]
  · intro t rest inits h1 h2
    simp [get_token, generate_token, h1, h2]
  · intro t rest inits h1 h2
    simp [get_token, generate_token, h1, h2]
  · intro o1 o2 rest inits h1 h2 ho1 ho2
    cases o1 with
    | ok t => simp [SolveOutcome.isOk] at ho1
    | falsy =>
      cases o2 with
      | ok t => simp [SolveOutcome.isOk] at ho2
      | falsy => simp [get_token, generate_token, h1, h2]
      | err => simp [get_token, generate_token, h1, h2]
    | err =>
      cases inits with
      | nil => simp [get_token, generate_token, initBrowser, h1, h2]
      | cons io irest =>
        cases io with
        | ok =>
          cases o2 with
          | ok t => simp [SolveOutcome.isOk] at ho2
          | falsy => simp [get_token, generate_token, initBrowser, h1, h2]
          | err => simp [get_token, generate_token, initBrowser, h1, h2]
        | failEarly => simp [get_token, generate_token, initBrowser, h1, h2]
        | failLate => simp [get_token, generate_token, initBrowser, h1, h2]
  · intro rest inits h1 h2
    simp [get_token, generate_token, h1, h2]

/-- The ready on-demand session state used by the C3 witness. -/
def odReady : OnState := ⟨true, true, 0⟩

/-- Witness for C3 (amended): a first falsy solve followed by a
successful retry returns the token and advances `lastKeepaliveAt` to
the call time, and a raising solve followed by a falsy retry raises
`generationFailed`. -/
theorem get_token_spec_witness :
    get_token ⟨[.falsy, .ok "tok1"], []⟩ odReady 50
      = (.ok "tok1", ⟨true, true, 50⟩, ⟨[], []⟩)
    ∧ (get_token ⟨[.err, .falsy], [.ok]⟩ odReady 50).1 = .error .generationFailed :=
  ⟨(get_token_spec odReady 50).2.2.1 "tok1" [] [] rfl rfl,
   (get_token_spec odReady 50).2.2.2.1 .err .falsy [] [.ok] rfl rfl rfl rfl⟩

/-- C4 counterexample: a falsy solve result is a solve failure (no
token is produced), yet `_generate_token` leaves
`browser_ready = true` and runs no reinitialization — the state and
the init environment are unchanged — contradicting "transitions
ready to not-ready on every solve failure". -/
theorem generate_falsy_no_transition_cex :
    generate_token ⟨[.falsy], [.ok]⟩ ⟨true, true, 0⟩ 50
      = (none, ⟨true, true, 0⟩, ⟨[], [.ok]⟩) :=
  rfl

/-- C4 (amended): only a solve failure that raises an exception
transitions ready to not-ready, and that transition happens before
`_generate_token` synchronously reruns `_initialize_browser`, which
attempts to restore ready (setting it on success and leaving it false
on failure); a falsy solve result — also a failed solve — does not
itself transition and triggers no reinitialization.  Under the
keepalive loop, a missing token is followed by a bare page refresh
inside the loop's own `try`: when that refresh succeeds nothing
changes, but when it raises, the keepalive's `except` clears ready
and reruns the reinitialization — so a falsy keepalive solve can
end in a reinitialization via a failing refresh, though never
through the solve itself. -/
theorem solve_failure_transitions (s : OnState) (now : Int) :
    (∀ rest inits, s.browser_ready = true → s.driver = true →
      generate_token ⟨.err :: rest, inits⟩ s now
        = (none, (initBrowser ⟨rest, inits⟩ { s with browser_ready := false } now).1,
            (initBrowser ⟨rest, inits⟩ { s with browser_ready := false } now).2))
    ∧ (∀ solves irest st, (initBrowser ⟨solves, .ok :: irest⟩ st now).1
        = ⟨true, true, now⟩)
    ∧ (∀ solves irest st,
        (initBrowser ⟨solves, .failEarly :: irest⟩ st now).1.browser_ready = false)
    ∧ (∀ rest inits, s.browser_ready = true → s.driver = true →
      generate_token ⟨.falsy :: rest, inits⟩ s now = (none, s, ⟨rest, inits⟩))
    ∧ (∀ rest inits, s.browser_ready = true → s.driver = true →
      keepaliveInterval ≤ now - s.last_keepalive →
      keepalive_step true ⟨.falsy :: rest, inits⟩ s now = (s, ⟨rest, inits⟩))
    ∧ (∀ rest inits, s.browser_ready = true → s.driver = true →
      keepaliveInterval ≤ now - s.last_keepalive →
      keepalive_step false ⟨.falsy :: rest, inits⟩ s now
        = initBrowser ⟨rest, inits⟩ { s with browser_ready := false } now) := by
  refine ⟨?_, ?_, ?_, ?_, ?_, ?_⟩
  · intro rest inits h1 h2
    simp [generate_token, h1, h2]
  · intro solves irest st
    simp [initBrowser]
  · intro solves irest st
    simp [initBrowser]
  · intro rest inits h1 h2
    simp [generate_token, h1, h2]
  · intro rest inits h1 h2 hdue
    simp [keepalive_step, generate_token, h1, h2, hdue]
  · intro rest inits h1 h2 hdue
    simp [keepalive_step, generate_token, h1, h2, hdue]

/-- Witness for C4 (amended): a raising solve from a ready session
flips `ready` off and runs a (failing) reinitialization; a falsy
solve from a ready session leaves the state untouched; and a falsy
keepalive solve whose follow-up page refresh raises ends in a
reinitialization (here a successful one). -/
theorem solve_failure_transitions_witness :
    generate_token ⟨[.err], [.failEarly]⟩ ⟨true, true, 0⟩ 50
      = (none, ⟨false, true, 0⟩, ⟨[], []⟩)
    ∧ generate_token ⟨[.falsy], []⟩ ⟨true, true, 7⟩ 50
      = (none, ⟨true, true, 7⟩, ⟨[], []⟩)
    ∧ keepalive_step false ⟨[.falsy], [.ok]⟩ ⟨true, true, -300⟩ 50
      = (⟨true, true, 50⟩, ⟨[], []⟩) :=
  ⟨(solve_failure_transitions ⟨true, true, 0⟩ 50).1 [] [.failEarly] rfl rfl,
   (solve_failure_transitions ⟨true, true, 7⟩ 50).2.2.2.1 [] [] rfl rfl,
   (solve_failure_transitions ⟨true, true, -300⟩ 50).2.2.2.2.2 [] [.ok] rfl rfl
     (by decide)⟩
